import Mathlib

set_option linter.unusedVariables false

/-!
Shallow embedding of the `command` package of karagog/shell-go
(`src/command/command.go`).

The package launches a child process and relays its standard streams over
channels:

* `Command.Start` acquires a stdin pipe when a stdin channel is supplied,
  spawns a goroutine that relays lines from that channel to the pipe, acquires
  stdout/stderr pipes, starts the process, and spawns one `read` goroutine per
  output stream.
* `read` scans an output stream line by line; each line is sent to the
  supplied channel, or echoed (with a trailing newline) to the parent's
  corresponding standard stream when no channel was supplied; the channel is
  closed (via `defer`) when scanning stops.
* the stdin relay goroutine writes each line's bytes verbatim to the pipe,
  panicking on a write error or a short write, and closes the pipe once the
  channel is exhausted, panicking if the close fails.

The embedding makes the interaction with the operating system explicit: a
`SysWorld` records which pipe/start operations fail and the parent process's
environment, write outcomes are supplied as a function from the write index to
a `WriteResult`, and goroutine effects are traces of events.
-/

/-- UTF-8 encoding of one character as a list of byte values.
Go strings are UTF-8 byte sequences, so the Go conversion of a line to a byte
slice yields exactly these bytes. -/
def utf8Char (c : Char) : List Nat :=
  let v := c.toNat
  if v < 128 then [v]
  else if v < 2048 then [192 + v / 64, 128 + v % 64]
  else if v < 65536 then [224 + v / 4096, 128 + (v / 64) % 64, 128 + v % 64]
  else [240 + v / 262144, 128 + (v / 4096) % 64, 128 + (v / 64) % 64, 128 + v % 64]

/-- The bytes of a line: the model of the Go expression converting the string
`line` to a byte slice (`data` in the stdin relay goroutine). -/
def lineBytes (s : String) : List Nat :=
  (s.data.map utf8Char).flatten

/-- The `Command` struct. Channels are modelled by what matters to the code:
for `Stdout`/`Stderr`, whether a channel was supplied (non-nil); for `Stdin`,
`none` for a nil channel and otherwise the sequence of lines the source yields
before its producer closes it. `Env` is a Go slice, which distinguishes nil
(`none`) from a non-nil slice (`some`). -/
structure Command where
  Name : String
  Args : List String
  Env : Option (List String)
  Stdout : Bool
  Stderr : Bool
  Stdin : Option (List String)
deriving DecidableEq

/-- An event observable on an output channel (line sink). -/
inductive SinkEvent
  | send (line : String)
  | close
deriving DecidableEq

/-- How a goroutine terminates: normally, or by panicking with a message
(which aborts the whole program). -/
inductive TaskEnd
  | normal
  | panicked (msg : String)
deriving DecidableEq

/-- The loop body of `read`: `for s.Scan() { ... }`. Given the lines the
scanner yields, returns the trace of events on the channel and the lines
echoed (each via `fmt.Fprintln`, hence with a trailing newline) to the
fallback stream, in order. -/
def readLoop : List String → Bool → List SinkEvent × List String
  | [], _ => ([], [])
  | line :: rest, chSupplied =>
    let tail := readLoop rest chSupplied
    if chSupplied then (SinkEvent.send line :: tail.1, tail.2)
    else (tail.1, (line ++ "\n") :: tail.2)

/-- The `read` goroutine of `Command.Start`. `lines` are the newline-delimited
lines the scanner yields before `Scan` returns false; `scanErr` records
whether scanning stopped because of a read error rather than end-of-file.
`bufio.Scanner.Scan` returns false in both cases, and `read` never consults
`s.Err()`, so the loop exits identically either way; the deferred `close(ch)`
then runs (when a channel was supplied) and the goroutine returns. -/
def Command.read (lines : List String) (scanErr : Bool) (chSupplied : Bool) :
    (List SinkEvent × List String) × TaskEnd :=
  let body := readLoop lines chSupplied
  (if chSupplied then (body.1 ++ [SinkEvent.close], body.2) else body, TaskEnd.normal)

/-- Outcome of one `stdin.Write(data)` call: the byte count returned and the
error value. -/
structure WriteResult where
  count : Nat
  err : Option String
deriving DecidableEq

/-- An action of the stdin relay goroutine on the child's stdin pipe. -/
inductive RelayStep
  | wrote (data : List Nat)
  | closedStdin
deriving DecidableEq

/-- The stdin relay goroutine spawned by `Command.Start` when `c.Stdin` is
non-nil. It ranges over the channel's lines; for each line it converts the
line to bytes and calls `stdin.Write`, panicking if the write returns an
error, then panicking if the returned count differs from the data length.
When the channel is exhausted it calls `stdin.Close()`, panicking if that
fails. `w i` is the outcome of the i-th write call; `closeOk` is whether the
close succeeds. Returns the trace of pipe actions and how the goroutine
ends. -/
def stdinRelay (closeOk : Bool) : List String → (Nat → WriteResult) → List RelayStep × TaskEnd
  | [], _ =>
    if closeOk then ([RelayStep.closedStdin], TaskEnd.normal)
    else ([], TaskEnd.panicked "unable to close the stdin pipe")
  | line :: rest, w =>
    let data := lineBytes line
    match (w 0).err with
    | some e => ([], TaskEnd.panicked ("cannot write stdin: " ++ e))
    | none =>
      if (w 0).count = data.length then
        let tail := stdinRelay closeOk rest (fun i => w (i + 1))
        (RelayStep.wrote data :: tail.1, tail.2)
      else
        ([], TaskEnd.panicked
          ("wrote " ++ toString (w 0).count ++ " bytes, want " ++ toString data.length))

/-- Every write the relay will issue succeeds completely: no error, and the
returned count equals the full byte length of the corresponding line. -/
def goodWrites : List String → (Nat → WriteResult) → Bool
  | [], _ => true
  | line :: rest, w =>
    (w 0).err.isNone && ((w 0).count == (lineBytes line).length)
      && goodWrites rest (fun i => w (i + 1))

/-- The byte stream a trace of relay actions pushes into the pipe. -/
def bytesWritten : List RelayStep → List Nat
  | [] => []
  | RelayStep.wrote d :: rest => d ++ bytesWritten rest
  | RelayStep.closedStdin :: rest => bytesWritten rest

/-- The goroutines `Command.Start` spawns. -/
inductive RelayTask
  | stdinRelayTask
  | stdoutReadTask
  | stderrReadTask
deriving DecidableEq

/-- The configuration of the child's standard input in the `exec.Cmd`
descriptor. When `Start` never calls `StdinPipe`, the field stays nil and the
runtime connects the child's stdin to the null device. -/
inductive ChildStdin
  | defaultNull
  | pipe
deriving DecidableEq

/-- The parent stream a `read` goroutine echoes to when no channel was
supplied: `os.Stdout` for the stdout reader, `os.Stderr` for the stderr
reader. -/
inductive EchoTarget
  | parentStdout
  | parentStderr
deriving DecidableEq

/-- Configuration of one spawned `read` goroutine: whether a channel was
supplied for its stream, and which parent stream it echoes to otherwise. -/
structure ReadConfig where
  sinkSupplied : Bool
  echo : EchoTarget
deriving DecidableEq

/-- The `exec.Cmd` descriptor, restricted to what the code configures. -/
structure ExecCmd where
  name : String
  args : List String
  env : Option (List String)
  stdinCfg : ChildStdin
  running : Bool
deriving DecidableEq

/-- The operating-system behaviour a launch runs against: whether each pipe
acquisition and the process start fail (and with what error), and the parent
process's environment. -/
structure SysWorld where
  stdinPipeErr : Option String
  stdoutPipeErr : Option String
  stderrPipeErr : Option String
  startErr : Option String
  parentEnv : List String
deriving DecidableEq

/-- Everything observable about one call to `Command.Start`: the returned
handle and error, the goroutines spawned up to the point `Start` returned,
whether a stdin pipe was acquired, whether a child process is running when
`Start` returns, the environment the child received (when it started), the
configurations of the two `read` goroutines (when spawned), and the value of
the `Command` struct after the call. -/
structure StartResult where
  handle : Option ExecCmd
  err : Option String
  tasks : List RelayTask
  stdinPipeAcquired : Bool
  processRunning : Bool
  childEnv : Option (List String)
  stdoutRead : Option ReadConfig
  stderrRead : Option ReadConfig
  specAfter : Command
deriving DecidableEq

/-- os/exec semantics for the environment: if the descriptor's `Env` slice is
nil, the child inherits the calling process's environment; otherwise the
child receives exactly the given entries. -/
def childEnvironment (cmdEnv : Option (List String)) (parentEnv : List String) : List String :=
  match cmdEnv with
  | none => parentEnv
  | some e => e

/-- The byte stream the child observes on its standard input. With the stdin
configuration left at its default, os/exec connects the null device, so the
child sees an empty input (immediate end-of-input); with a pipe, it sees the
bytes relayed into the pipe. -/
def childStdinInput (cfg : ChildStdin) (relayed : List Nat) : List Nat :=
  match cfg with
  | ChildStdin.defaultNull => []
  | ChildStdin.pipe => relayed

/-- The part of `Command.Start` after the stdin block: acquire the stdout and
stderr pipes, start the process, and spawn the two `read` goroutines.
`cmd` is the descriptor built so far, `stdinAcq` whether a stdin pipe was
acquired, `ts` the goroutines already spawned (the stdin relay, when
`c.Stdin` was non-nil). Each failure returns a nil handle and the error. -/
def startRest (c : Command) (sys : SysWorld) (cmd : ExecCmd) (stdinAcq : Bool)
    (ts : List RelayTask) : StartResult :=
  match sys.stdoutPipeErr with
  | some e => ⟨none, some e, ts, stdinAcq, false, none, none, none, c⟩
  | none =>
    match sys.stderrPipeErr with
    | some e => ⟨none, some e, ts, stdinAcq, false, none, none, none, c⟩
    | none =>
      match sys.startErr with
      | some e => ⟨none, some e, ts, stdinAcq, false, none, none, none, c⟩
      | none =>
        ⟨some { cmd with running := true },
         none,
         ts ++ [RelayTask.stdoutReadTask, RelayTask.stderrReadTask],
         stdinAcq,
         true,
         some (childEnvironment c.Env sys.parentEnv),
         some ⟨c.Stdout, EchoTarget.parentStdout⟩,
         some ⟨c.Stderr, EchoTarget.parentStderr⟩,
         c⟩

/-- `Command.Start`: build the descriptor from `Name`, `Args`, `Env`; if a
stdin channel was supplied, acquire the stdin pipe (returning the error on
failure) and spawn the stdin relay goroutine; then acquire the output pipes,
start the process, and spawn the `read` goroutines. The `Command` itself is
never written to, so the specification after the call is the input `c`. -/
def Command.Start (c : Command) (sys : SysWorld) : StartResult :=
  let cmd : ExecCmd :=
    ⟨c.Name, c.Args, c.Env, ChildStdin.defaultNull, false⟩
  match c.Stdin with
  | none => startRest c sys cmd false []
  | some _ =>
    match sys.stdinPipeErr with
    | some e => ⟨none, some e, [], false, false, none, none, none, c⟩
    | none =>
      startRest c sys { cmd with stdinCfg := ChildStdin.pipe } true [RelayTask.stdinRelayTask]

/-- A launch fails when stdin-pipe acquisition fails (attempted only for a
non-nil stdin channel), or stdout/stderr pipe acquisition fails, or starting
the process fails. -/
def launchFails (c : Command) (sys : SysWorld) : Bool :=
  (c.Stdin.isSome && sys.stdinPipeErr.isSome) || sys.stdoutPipeErr.isSome
    || sys.stderrPipeErr.isSome || sys.startErr.isSome

theorem readLoop_sink (lines : List String) :
    readLoop lines true = (lines.map SinkEvent.send, []) := by
  induction lines with
  | nil => rfl
  | cons l rest ih => simp [readLoop, ih]

theorem readLoop_echo (lines : List String) :
    readLoop lines false = ([], lines.map (fun l => l ++ "\n")) := by
  induction lines with
  | nil => rfl
  | cons l rest ih => simp [readLoop, ih]

/-- C1: with a sink supplied, the output-relay goroutine delivers every
newline-delimited line the child wrote before end-of-file to the sink, in the
order the child emitted it, with no line duplicated or dropped, and then
closes the sink exactly once (the deferred close runs after the last line,
whether the stream ended because the child exited normally or abnormally). -/
theorem sink_receives_every_line_then_closes_once (lines : List String) :
    Command.read lines false true
      = ((lines.map SinkEvent.send ++ [SinkEvent.close], []), TaskEnd.normal)
    ∧ ((Command.read lines false true).1.1).count SinkEvent.close = 1 := by
  have h := readLoop_sink lines
  refine ⟨by simp [Command.read, h], ?_⟩
  simp only [Command.read, h, List.count_append]
  have hz : (lines.map SinkEvent.send).count SinkEvent.close = 0 := by
    rw [List.count_eq_zero]
    simp
  simp [hz]

/-- C5 counterexample: a `read` goroutine whose scanner stops because of an
I/O read error (scanErr set) does not panic: it delivers the lines read so
far, closes the channel and terminates normally, exactly as at end-of-file. -/
theorem output_read_error_no_abort_counterexample :
    Command.read ["boom"] true true
      = (([SinkEvent.send "boom", SinkEvent.close], []), TaskEnd.normal)
    ∧ (Command.read ["boom"] true true).2 = TaskEnd.normal := by
  exact ⟨rfl, rfl⟩

/-- C5 amended: an unexpected I/O failure during output relay is silently
swallowed, not fatal: `Scan` returns false exactly as at end-of-file, `s.Err()`
is never consulted, and the goroutine behaves identically to the error-free
case and terminates normally. Only the stdin relay aborts the program. -/
theorem output_read_error_swallowed (lines : List String) (scanErr chSupplied : Bool) :
    Command.read lines scanErr chSupplied = Command.read lines false chSupplied
    ∧ (Command.read lines scanErr chSupplied).2 = TaskEnd.normal := by
  exact ⟨rfl, rfl⟩

/-- C6: when no sink is supplied for a stream, the spawned reader for stdout
echoes to the parent's inherited standard output and the reader for stderr to
the parent's standard error, and each decoded line is written there with a
trailing line terminator, in the order the child emitted it. -/
theorem no_sink_lines_echoed_to_parent (c : Command) (sys : SysWorld)
    (h : launchFails c sys = false) :
    (c.Start sys).stdoutRead = some ⟨c.Stdout, EchoTarget.parentStdout⟩
    ∧ (c.Start sys).stderrRead = some ⟨c.Stderr, EchoTarget.parentStderr⟩
    ∧ ∀ (lines : List String) (scanErr : Bool),
        Command.read lines scanErr false = (([], lines.map (fun l => l ++ "\n")), TaskEnd.normal) := by
  rcases c with ⟨n, a, env, so, se, si⟩
  rcases sys with ⟨ip, op, ep, st, pe⟩
  cases si <;> cases ip <;> cases op <;> cases ep <;> cases st <;>
    simp_all [launchFails, Command.Start, startRest, Command.read, readLoop_echo]

/-- The scenario of the repository's first test: an echo command with a stdout
channel supplied and no stderr channel and no stdin channel. -/
def echoCmd : Command := ⟨"echo", ["Hello George"], none, true, false, none⟩

/-- The scenario of the repository's stdin test: a grep command fed one line
through a stdin channel, with no output channels. -/
def grepCmd : Command :=
  ⟨"grep", ["."], none, false, false, some ["This output should be seen in our logs"]⟩

/-- A system in which every pipe acquisition and the process start succeed. -/
def sysAllOk : SysWorld := ⟨none, none, none, none, ["PATH=/bin"]⟩

/-- A system in which starting the process fails (for example because the
executable name resolves to nothing), while pipe acquisition succeeds. -/
def sysNoExe : SysWorld :=
  ⟨none, none, none, some "executable file not found in PATH", []⟩

/-- C6 witness at the test scenarios. -/
theorem no_sink_lines_echoed_to_parent_witness :
    (echoCmd.Start sysAllOk).stdoutRead = some ⟨true, EchoTarget.parentStdout⟩
    ∧ (echoCmd.Start sysAllOk).stderrRead = some ⟨false, EchoTarget.parentStderr⟩
    ∧ Command.read ["This output should be seen in our logs"] false false
        = (([], ["This output should be seen in our logs\n"]), TaskEnd.normal) := by
  have h := no_sink_lines_echoed_to_parent echoCmd sysAllOk (by decide)
  exact ⟨h.1, h.2.1, h.2.2 ["This output should be seen in our logs"] false⟩

/-- C3: a failure acquiring the stdin pipe (attempted only when a stdin
channel is supplied), the stdout pipe, or the stderr pipe, or a failure
starting the child, makes `Start` return a nil handle with a non-nil error
and no child process running; otherwise `Start` returns a live handle and a
nil error. -/
theorem launch_failure_returns_error_no_process (c : Command) (sys : SysWorld) :
    (launchFails c sys = true →
       (c.Start sys).handle = none ∧ (c.Start sys).err.isSome = true
       ∧ (c.Start sys).processRunning = false)
    ∧ (launchFails c sys = false →
       (c.Start sys).err = none ∧ (c.Start sys).processRunning = true
       ∧ ∃ cmd, (c.Start sys).handle = some cmd ∧ cmd.running = true) := by
  rcases c with ⟨n, a, env, so, se, si⟩
  rcases sys with ⟨ip, op, ep, st, pe⟩
  cases si <;> cases ip <;> cases op <;> cases ep <;> cases st <;>
    simp [launchFails, Command.Start, startRest]

/-- C3 witness: one failing launch and one succeeding launch. -/
theorem launch_failure_returns_error_no_process_witness :
    ((echoCmd.Start sysNoExe).handle = none
      ∧ (echoCmd.Start sysNoExe).err.isSome = true
      ∧ (echoCmd.Start sysNoExe).processRunning = false)
    ∧ ((echoCmd.Start sysAllOk).err = none
      ∧ (echoCmd.Start sysAllOk).processRunning = true
      ∧ ∃ cmd, (echoCmd.Start sysAllOk).handle = some cmd ∧ cmd.running = true) :=
  ⟨(launch_failure_returns_error_no_process echoCmd sysNoExe).1 (by decide),
   (launch_failure_returns_error_no_process echoCmd sysAllOk).2 (by decide)⟩

/-- C8: `Start` does not mutate the `Command`: after the call every field of
the specification holds exactly the value it held before. -/
theorem start_does_not_mutate_spec (c : Command) (sys : SysWorld) :
    (c.Start sys).specAfter = c
    ∧ (c.Start sys).specAfter.Name = c.Name
    ∧ (c.Start sys).specAfter.Args = c.Args
    ∧ (c.Start sys).specAfter.Env = c.Env
    ∧ (c.Start sys).specAfter.Stdout = c.Stdout
    ∧ (c.Start sys).specAfter.Stderr = c.Stderr
    ∧ (c.Start sys).specAfter.Stdin = c.Stdin := by
  have h : (c.Start sys).specAfter = c := by
    rcases c with ⟨n, a, env, so, se, si⟩
    rcases sys with ⟨ip, op, ep, st, pe⟩
    cases si <;> cases ip <;> cases op <;> cases ep <;> cases st <;>
      simp [Command.Start, startRest]
  exact ⟨h, by rw [h], by rw [h], by rw [h], by rw [h], by rw [h], by rw [h]⟩

/-- C4: the claim fails on the code. The code copies the `Env` field into the
`exec.Cmd` descriptor unchanged; os/exec gives a child whose descriptor has a
nil environment the calling process's entire environment. So a `Command`
whose `Env` field is left empty (nil, its zero value) inherits the parent's
environment, contrary to the claim (and to the field's own doc comment); only
a non-nil empty slice yields a child with no environment. -/
theorem nil_env_inherits_parent_environment :
    (Command.Start ⟨"echo", [], none, false, false, none⟩
        ⟨none, none, none, none, ["HOME=/root", "PATH=/bin"]⟩).childEnv
      = some ["HOME=/root", "PATH=/bin"]
    ∧ childEnvironment none ["HOME=/root", "PATH=/bin"] = ["HOME=/root", "PATH=/bin"]
    ∧ childEnvironment (some []) ["HOME=/root", "PATH=/bin"] = [] :=
  ⟨rfl, rfl, rfl⟩

theorem stdinRelay_of_goodWrites (closeOk : Bool) :
    ∀ (lines : List String) (w : Nat → WriteResult), goodWrites lines w = true →
      stdinRelay closeOk lines w
        = (lines.map (fun l => RelayStep.wrote (lineBytes l))
             ++ (if closeOk then [RelayStep.closedStdin] else []),
           if closeOk then TaskEnd.normal
           else TaskEnd.panicked "unable to close the stdin pipe") := by
  intro lines
  induction lines with
  | nil =>
    intro w h
    cases closeOk <;> simp [stdinRelay]
  | cons line rest ih =>
    intro w h
    simp only [goodWrites, Bool.and_eq_true, beq_iff_eq, Option.isNone_iff_eq_none] at h
    obtain ⟨⟨he, hc⟩, hrest⟩ := h
    simp [stdinRelay, he, hc, ih _ hrest]

theorem stdinRelay_of_badWrites (closeOk : Bool) :
    ∀ (lines : List String) (w : Nat → WriteResult), goodWrites lines w = false →
      (stdinRelay closeOk lines w).2 ≠ TaskEnd.normal
      ∧ RelayStep.closedStdin ∉ (stdinRelay closeOk lines w).1 := by
  intro lines
  induction lines with
  | nil => intro w h; simp [goodWrites] at h
  | cons line rest ih =>
    intro w h
    rcases he : (w 0).err with _ | e
    · by_cases hc : (w 0).count = (lineBytes line).length
      · have hrest : goodWrites rest (fun i => w (i + 1)) = false := by
          simp only [goodWrites, he, hc, Option.isNone_none, beq_self_eq_true,
            Bool.true_and, Bool.and_eq_false_iff] at h
          simpa using h
        have htail := ih _ hrest
        simp only [stdinRelay, he, hc, if_true, List.mem_cons]
        refine ⟨htail.1, ?_⟩
        simp [htail.2]
      · simp [stdinRelay, he, hc]
    · simp [stdinRelay, he]

theorem stdinRelay_closes_at_most_once (closeOk : Bool) :
    ∀ (lines : List String) (w : Nat → WriteResult),
      (stdinRelay closeOk lines w).1.count RelayStep.closedStdin ≤ 1 := by
  intro lines
  induction lines with
  | nil => intro w; cases closeOk <;> simp [stdinRelay]
  | cons line rest ih =>
    intro w
    rcases he : (w 0).err with _ | e
    · by_cases hc : (w 0).count = (lineBytes line).length
      · simp only [stdinRelay, he, hc, if_true]
        simpa [List.count_cons] using ih fun i => w (i + 1)
      · simp [stdinRelay, he, hc]
    · simp [stdinRelay, he]

/-- C2: when a stdin channel is supplied (and its pipe is acquired), `Start`
acquires the child's stdin handle and spawns the relay goroutine. The relay
consumes the source's lines one at a time and writes each line's bytes,
verbatim and in source order, to the pipe; a write error or short write
panics (aborting the program) and in that case the pipe is never closed by
the relay; when the source is exhausted the relay closes the pipe exactly
once and terminates, panicking if the close fails; in every run the pipe is
closed at most once. -/
theorem stdin_relay_writes_then_closes_once (c : Command) (sys : SysWorld)
    (lines : List String) (w : Nat → WriteResult) (closeOk : Bool) :
    (c.Stdin.isSome = true → sys.stdinPipeErr = none →
       (c.Start sys).stdinPipeAcquired = true
       ∧ RelayTask.stdinRelayTask ∈ (c.Start sys).tasks)
    ∧ (goodWrites lines w = true →
       stdinRelay true lines w
         = (lines.map (fun l => RelayStep.wrote (lineBytes l)) ++ [RelayStep.closedStdin],
            TaskEnd.normal)
       ∧ stdinRelay false lines w
         = (lines.map (fun l => RelayStep.wrote (lineBytes l)),
            TaskEnd.panicked "unable to close the stdin pipe"))
    ∧ (goodWrites lines w = false →
       (stdinRelay closeOk lines w).2 ≠ TaskEnd.normal
       ∧ RelayStep.closedStdin ∉ (stdinRelay closeOk lines w).1)
    ∧ (stdinRelay closeOk lines w).1.count RelayStep.closedStdin ≤ 1 := by
  refine ⟨?_, ?_, stdinRelay_of_badWrites closeOk lines w,
    stdinRelay_closes_at_most_once closeOk lines w⟩
  · intro hsi hip
    rcases c with ⟨n, a, env, so, se, si⟩
    rcases sys with ⟨ip, op, ep, st, pe⟩
    cases si <;> cases ip <;> cases op <;> cases ep <;> cases st <;>
      simp_all [Command.Start, startRest]
  · intro hg
    constructor
    · simpa using stdinRelay_of_goodWrites true lines w hg
    · simpa using stdinRelay_of_goodWrites false lines w hg

/-- Write outcomes in which every write succeeds in full for the single line
of the stdin test scenario (38 bytes). -/
def wOkGrep : Nat → WriteResult := fun i => ⟨38, none⟩

/-- C2 witness at the stdin test scenario. -/
theorem stdin_relay_writes_then_closes_once_witness :
    ((grepCmd.Start sysAllOk).stdinPipeAcquired = true
      ∧ RelayTask.stdinRelayTask ∈ (grepCmd.Start sysAllOk).tasks)
    ∧ stdinRelay true ["This output should be seen in our logs"] wOkGrep
        = (["This output should be seen in our logs"].map
             (fun l => RelayStep.wrote (lineBytes l)) ++ [RelayStep.closedStdin],
           TaskEnd.normal) :=
  ⟨(stdin_relay_writes_then_closes_once grepCmd sysAllOk
      ["This output should be seen in our logs"] wOkGrep true).1 (by decide) rfl,
   ((stdin_relay_writes_then_closes_once grepCmd sysAllOk
      ["This output should be seen in our logs"] wOkGrep true).2.1 (by decide)).1⟩

theorem bytesWritten_append (a b : List RelayStep) :
    bytesWritten (a ++ b) = bytesWritten a ++ bytesWritten b := by
  induction a with
  | nil => rfl
  | cons s rest ih => cases s <;> simp [bytesWritten, ih]

theorem bytesWritten_map_wrote (lines : List String) :
    bytesWritten (lines.map (fun l => RelayStep.wrote (lineBytes l)))
      = (lines.map lineBytes).flatten := by
  induction lines with
  | nil => rfl
  | cons l rest ih => simp [bytesWritten, ih]

/-- C9: the relay writes exactly each line's bytes, appending no line
terminator, so the byte stream pushed into the pipe — and hence the input the
child reads from the stdin pipe — is precisely the concatenation of the
source's lines' bytes. -/
theorem stdin_stream_is_concatenation_of_lines (lines : List String)
    (w : Nat → WriteResult) (closeOk : Bool) (h : goodWrites lines w = true) :
    bytesWritten (stdinRelay closeOk lines w).1 = (lines.map lineBytes).flatten
    ∧ childStdinInput ChildStdin.pipe (bytesWritten (stdinRelay closeOk lines w).1)
        = (lines.map lineBytes).flatten := by
  have hrun := stdinRelay_of_goodWrites closeOk lines w h
  have h1 : bytesWritten (stdinRelay closeOk lines w).1 = (lines.map lineBytes).flatten := by
    rw [hrun]
    cases closeOk <;>
      simp [bytesWritten_append, bytesWritten_map_wrote, bytesWritten]
  exact ⟨h1, by rw [childStdinInput, h1]⟩

/-- C9 witness: two lines whose concatenation carries no separator. -/
theorem stdin_stream_is_concatenation_of_lines_witness :
    bytesWritten (stdinRelay true ["ab", "cd"] (fun i => ⟨2, none⟩)).1
      = (["ab", "cd"].map lineBytes).flatten :=
  (stdin_stream_is_concatenation_of_lines ["ab", "cd"] (fun i => ⟨2, none⟩) true (by decide)).1

/-- C7 counterexample: launching a spec that has a stdin channel against a
system where the executable does not exist (process start fails, pipes fine)
returns a Launch Error and leaves no process running — but the stdin relay
goroutine, spawned before the failure, is still among the spawned tasks, so
the failed launch does leak a relay task. -/
theorem failed_launch_leaves_relay_task_counterexample :
    (grepCmd.Start sysNoExe).err.isSome = true
    ∧ (grepCmd.Start sysNoExe).processRunning = false
    ∧ (grepCmd.Start sysNoExe).tasks = [RelayTask.stdinRelayTask] := by
  exact ⟨rfl, rfl, rfl⟩

/-- C7 amended: launch against a nonexistent executable (process start fails
after the pipes were acquired) returns the start error, a nil handle, and no
running process, and spawns neither output-relay goroutine; but when a stdin
channel was supplied, the stdin relay goroutine has already been spawned
before the failure and is not terminated by the failed launch — it stays
blocked on the source until the caller closes it. With no stdin channel, no
goroutine at all is spawned. -/
theorem nonexistent_executable_launch (c : Command) (sys : SysWorld)
    (hip : sys.stdinPipeErr = none) (hop : sys.stdoutPipeErr = none)
    (hep : sys.stderrPipeErr = none) (hst : sys.startErr.isSome = true) :
    (c.Start sys).err = sys.startErr
    ∧ (c.Start sys).handle = none
    ∧ (c.Start sys).processRunning = false
    ∧ RelayTask.stdoutReadTask ∉ (c.Start sys).tasks
    ∧ RelayTask.stderrReadTask ∉ (c.Start sys).tasks
    ∧ (c.Start sys).tasks = (if c.Stdin.isSome then [RelayTask.stdinRelayTask] else []) := by
  rcases c with ⟨n, a, env, so, se, si⟩
  rcases sys with ⟨ip, op, ep, st, pe⟩
  cases si <;> cases ip <;> cases op <;> cases ep <;> cases st <;>
    simp_all [Command.Start, startRest]

/-- C7 witness at the stdin test scenario against a missing executable. -/
theorem nonexistent_executable_launch_witness :
    (grepCmd.Start sysNoExe).err = sysNoExe.startErr
    ∧ (grepCmd.Start sysNoExe).handle = none
    ∧ (grepCmd.Start sysNoExe).processRunning = false
    ∧ RelayTask.stdoutReadTask ∉ (grepCmd.Start sysNoExe).tasks
    ∧ RelayTask.stderrReadTask ∉ (grepCmd.Start sysNoExe).tasks
    ∧ (grepCmd.Start sysNoExe).tasks
        = (if grepCmd.Stdin.isSome then [RelayTask.stdinRelayTask] else []) :=
  nonexistent_executable_launch grepCmd sysNoExe rfl rfl rfl rfl

/-- C10: with a nil stdin channel, `Start` never acquires a stdin pipe and
never spawns a stdin relay goroutine, and the descriptor's stdin stays at its
default, so the child reads from the null device and observes an empty input
(immediate end-of-input). -/
theorem nil_stdin_no_relay_default_input (c : Command) (sys : SysWorld)
    (h : c.Stdin = none) :
    (c.Start sys).stdinPipeAcquired = false
    ∧ RelayTask.stdinRelayTask ∉ (c.Start sys).tasks
    ∧ (∀ cmd, (c.Start sys).handle = some cmd → cmd.stdinCfg = ChildStdin.defaultNull)
    ∧ (∀ cmd relayed, (c.Start sys).handle = some cmd →
        childStdinInput cmd.stdinCfg relayed = []) := by
  rcases c with ⟨n, a, env, so, se, si⟩
  rcases sys with ⟨ip, op, ep, st, pe⟩
  cases si <;> cases ip <;> cases op <;> cases ep <;> cases st <;>
    simp_all [Command.Start, startRest, childStdinInput] <;>
    (intro cmd relayed hcmd; subst hcmd; rfl)

/-- C10 witness at the echo test scenario. -/
theorem nil_stdin_no_relay_default_input_witness :
    (echoCmd.Start sysAllOk).stdinPipeAcquired = false
    ∧ RelayTask.stdinRelayTask ∉ (echoCmd.Start sysAllOk).tasks
    ∧ (∀ cmd, (echoCmd.Start sysAllOk).handle = some cmd →
        cmd.stdinCfg = ChildStdin.defaultNull) :=
  ⟨(nil_stdin_no_relay_default_input echoCmd sysAllOk rfl).1,
   (nil_stdin_no_relay_default_input echoCmd sysAllOk rfl).2.1,
   (nil_stdin_no_relay_default_input echoCmd sysAllOk rfl).2.2.1⟩
